import Mathlib

/-!
Verification of the Excelbot repository (src/app.py, src/data_processor.py).

The Python source is shallowly embedded: pure string manipulation is
translated to executable Lean functions over `List Char` / `String`
(ASCII model of Python's `str` operations), pandas tables become a
concrete `Table` structure, and the pandas/exec primitives that the
repository merely calls (elementwise comparison, `describe`, `groupby`
aggregation, `df.query`, the Python `exec` of a plot snippet) are
parameters supplied to the embedded functions, so that every branch,
string format and dispatch decision written in the repository itself is
concrete and computable.
-/

namespace Excelbot

/-! ### Python string primitives (ASCII model)

Python `str.strip`, `str.lower`, `str.upper`, `str.title`,
`str.startswith`, `in` (substring), `str.split('\n')`, `str.join` and
`str.replace` are modelled on `List Char`.  Case mapping and the
character classes follow Python's behaviour on the ASCII range. -/

def pyIsSpace (c : Char) : Bool :=
  c = ' ' || c = '\t' || c = '\n' || c = '\r' || c = '\x0b' || c = '\x0c'

def isUpperA (c : Char) : Bool := decide (65 ≤ c.toNat) && decide (c.toNat ≤ 90)

def isLowerA (c : Char) : Bool := decide (97 ≤ c.toNat) && decide (c.toNat ≤ 122)

def isDigitA (c : Char) : Bool := decide (48 ≤ c.toNat) && decide (c.toNat ≤ 57)

def isAlphaA (c : Char) : Bool := isUpperA c || isLowerA c

def isWordCharA (c : Char) : Bool := isAlphaA c || isDigitA c || c = '_'

def pyToLower (c : Char) : Char := if isUpperA c then Char.ofNat (c.toNat + 32) else c

def pyToUpper (c : Char) : Char := if isLowerA c then Char.ofNat (c.toNat - 32) else c

/-- Strip characters satisfying `p` from both ends of a character list
(Python `str.strip()` / `str.strip('_')`). -/
def pyStripChars (p : Char → Bool) (l : List Char) : List Char :=
  ((l.dropWhile p).reverse.dropWhile p).reverse

def pyStripS (s : String) : String := ⟨pyStripChars pyIsSpace s.data⟩

def pyLowerS (s : String) : String := ⟨s.data.map pyToLower⟩

def pyUpperS (s : String) : String := ⟨s.data.map pyToUpper⟩

/-- Python `str.title()`: the flag records whether the previous character
was a (cased) letter; letters after a letter are lowercased, letters
after a non-letter are uppercased. -/
def pyTitleAux : Bool → List Char → List Char
  | _, [] => []
  | prevAlpha, c :: rest =>
    (if isAlphaA c then (if prevAlpha then pyToLower c else pyToUpper c) else c) ::
      pyTitleAux (isAlphaA c) rest

def pyTitleS (s : String) : String := ⟨pyTitleAux false s.data⟩

/-- `startsWithL pat l` : `pat` is a leading segment of `l`
(Python `str.startswith`). -/
def startsWithL : List Char → List Char → Bool
  | [], _ => true
  | _ :: _, [] => false
  | a :: as, b :: bs => a = b && startsWithL as bs

def startsWithS (pat s : String) : Bool := startsWithL pat.data s.data

/-- `occursInL pat l` : `pat` occurs contiguously inside `l`
(Python `pat in l`). -/
def occursInL (pat : List Char) : List Char → Bool
  | [] => pat.isEmpty
  | c :: rest => startsWithL pat (c :: rest) || occursInL pat rest

def occursInS (pat s : String) : Bool := occursInL pat.data s.data

/-- Python `str.split('\n')`: every newline separates, empty pieces kept. -/
def splitOnNl : List Char → List (List Char)
  | [] => [[]]
  | c :: rest =>
    match splitOnNl rest with
    | [] => [[]]
    | h :: t => if c = '\n' then [] :: h :: t else (c :: h) :: t

/-- Python `sep.join(pieces)`. -/
def joinSep (sep : List Char) : List (List Char) → List Char
  | [] => []
  | [x] => x
  | x :: y :: t => x ++ sep ++ joinSep sep (y :: t)

/-- Python `str.replace`: replace every non-overlapping occurrence of
`pat`, scanning left to right (callers never pass an empty `pat`). -/
def replaceFrom (pat rep : List Char) : List Char → List Char
  | [] => []
  | c :: rest =>
    if !pat.isEmpty && startsWithL pat (c :: rest) then
      rep ++ replaceFrom pat rep (List.drop (pat.length - 1) rest)
    else c :: replaceFrom pat rep rest
  termination_by l => l.length
  decreasing_by
    · simp only [List.length_cons]
      have := List.length_drop (pat.length - 1) rest
      omega
    · simp only [List.length_cons]; omega

def pyReplaceS (s pat rep : String) : String :=
  if pat.data.isEmpty then s else ⟨replaceFrom pat.data rep.data s.data⟩

/-! ### data_processor.py — header repair and canonicalization -/

/-- One step of `DataProcessor._handle_missing_column_names`
(src/data_processor.py lines 40-50): strip the header, replace it by
`Column <i+1>` when it starts with `Unnamed:`, is one of
`['', 'nan', 'NaN', 'None']`, is purely digits (`str.isdigit`) or is
empty, and keep the stripped header otherwise. -/
def handleMissingOne (i : Nat) (col : String) : String :=
  let colStr := pyStripS col
  if startsWithS "Unnamed:" colStr ||
      (colStr = "" || colStr = "nan" || colStr = "NaN" || colStr = "None") ||
      (!colStr.data.isEmpty && colStr.data.all isDigitA) ||
      colStr.data.isEmpty then
    "Column " ++ toString (i + 1)
  else
    colStr

/-- The `for i, col in enumerate(df.columns)` loop of
`_handle_missing_column_names`, with the running index made explicit. -/
def handleMissingAux (i : Nat) : List String → List String
  | [] => []
  | c :: rest => handleMissingOne i c :: handleMissingAux (i + 1) rest

def _handle_missing_column_names (cols : List String) : List String :=
  handleMissingAux 0 cols

/-- `re.sub(r'[^\w]', '_', s)` acts on each character separately. -/
def normChar (c : Char) : Char := if isWordCharA c then c else '_'

/-- `re.sub(r'_+', '_', s)`: collapse every run of underscores to one. -/
def collapseU : List Char → List Char
  | [] => []
  | [c] => [c]
  | c1 :: c2 :: rest =>
    if c1 = '_' && c2 = '_' then collapseU (c2 :: rest)
    else c1 :: collapseU (c2 :: rest)

/-- Python `str.strip('_')`. -/
def stripUnd (l : List Char) : List Char := pyStripChars (fun c => c = '_') l

/-- The body of the `for col in columns` loop of
`DataProcessor._normalize_column_names` (src/data_processor.py lines
58-67): strip whitespace, lowercase, replace non-word characters by
underscores, collapse runs of underscores, strip underscores. -/
def canonList (l : List Char) : List Char :=
  stripUnd (collapseU (((pyStripChars pyIsSpace l).map pyToLower).map normChar))

def normalizeOne (col : String) : String := ⟨canonList col.data⟩

def _normalize_column_names (cols : List String) : List String :=
  cols.map normalizeOne

/-! ### Python dict with string keys (insertion order, last write wins) -/

def dictInsert (d : List (String × String)) (kv : String × String) :
    List (String × String) :=
  if d.any (fun p => p.1 == kv.1) then
    d.map (fun p => if p.1 == kv.1 then kv else p)
  else d ++ [kv]

def dictOfPairs (ps : List (String × String)) : List (String × String) :=
  ps.foldl dictInsert []

/-- `DataProcessor._create_column_mapping` (src/data_processor.py lines
70-73): `dict(zip(self.df.columns, original_cols))`, where
`self.df.columns` are the repaired-then-canonicalized headers and
`original_cols` are the raw headers of a second (deterministic) read of
the same file. -/
def _create_column_mapping (raw : List String) : List (String × String) :=
  dictOfPairs ((_normalize_column_names (_handle_missing_column_names raw)).zip raw)

/-! ### data_processor.py — numeric coercion step of `_clean_data` -/

/-- `pd.to_numeric(cell, errors='coerce')` on one cell of an object
column: a missing cell coerces to NaN (`none`); a textual cell coerces
through the supplied conversion `conv` (the pandas numeric parser,
taken as a parameter). -/
def coerceCell {β : Type} (conv : String → Option β) : Option String → Option β
  | none => none
  | some s => conv s

/-- The numeric-coercion step of `DataProcessor._clean_data`
(src/data_processor.py lines 78-85) applied to one object-dtype column:
`inr` replaces the column with its coerced values, `inl` keeps the
original.  The replacement happens when the coerced series is not all
NaN and the fraction of successfully converted cells over `len(df)`
exceeds 0.8; the float comparison `count / len > 0.8` is modelled by
the exact comparison `4 * len < 5 * count`, which agrees with the
double-precision computation at the exact-80% boundary. -/
def cleanColumn {β : Type} (conv : String → Option β) (col : List (Option String)) :
    List (Option String) ⊕ List (Option β) :=
  let numeric := col.map (coerceCell conv)
  if numeric.all (fun v => v.isNone) then Sum.inl col
  else if decide (4 * col.length < 5 * (numeric.filter (fun v => v.isSome)).length) then
    Sum.inr numeric
  else Sum.inl col

/-- A concrete instance of the numeric parser: nonempty all-digit
strings convert, everything else fails (the behaviour of
`pd.to_numeric` restricted to nonnegative-integer text). -/
def parseDigits (s : String) : Option Nat :=
  if !s.data.isEmpty && s.data.all isDigitA then
    some (s.data.foldl (fun n c => 10 * n + (c.toNat - 48)) 0)
  else none

/-! ### data_processor.py — tables and the Data Query Executor

A `Table` is the embedded `pd.DataFrame`: ordered column names plus
rows of optional textual cells (`none` is a missing value).  The pandas
primitives the executor merely calls — elementwise comparison against a
query value, dtype inspection, `describe`, `groupby` aggregation,
`value_counts`, `df.query` — are supplied through `PandasOps`; every
branch, guard and dispatch written in `data_processor.py` itself is
concrete. -/

structure Table where
  cols : List String
  rows : List (List (Option String))
deriving DecidableEq

def emptyTable : Table := ⟨[], []⟩

/-- The mutable state of a `DataProcessor` instance: `self.df` and
`self.column_mapping`. -/
structure DPState where
  df : Table
  column_mapping : List (String × String)
deriving DecidableEq

/-- One entry of the `conditions` dict of `_filter_data`:
`{'operator': ..., 'value': ...}` (the default `'=='` of
`condition.get('operator', '==')` is the caller's concern here, the
field is always present in the model). -/
structure FilterCond where
  operator : String
  value : String
deriving DecidableEq

/-- The pandas primitives used by the Data Query Executor, taken as
parameters of the embedding.  `cellEq c v` etc. model the elementwise
`df[column] == value` comparisons (missing values compare `False` in
pandas); `queryRun` models `df.query` returning `none` when the
evaluation raises. -/
structure PandasOps where
  cellEq : Option String → String → Bool
  cellNe : Option String → String → Bool
  cellGt : Option String → String → Bool
  cellLt : Option String → String → Bool
  cellGe : Option String → String → Bool
  cellLe : Option String → String → Bool
  numericColumns : Table → List String
  isNumericDtype : Table → String → Bool
  describe : Table → List String → Table
  groupAgg : Table → String → String → String → Table
  groupSize : Table → String → Table
  valueCounts : Table → String → Table
  corr : Table → List String → Table
  queryRun : Table → String → Option Table

/-- `series.astype(str)` on one cell: pandas renders a missing value as
the string `"nan"` before any string matching happens. -/
def astypeStr : Option String → String
  | none => "nan"
  | some s => s

/-- The `contains` branch of `_filter_data`
(src/data_processor.py line 216):
`filtered_df[column].astype(str).str.contains(str(value), case=False, na=False)`.
`case=False` lowercases both sides; `na=False` is inert because
`astype(str)` has already turned missing values into the text `"nan"`. -/
def containsCellMatch (value : String) (c : Option String) : Bool :=
  occursInS (pyLowerS value) (pyLowerS (astypeStr c))

/-- `filtered_df[filtered_df[column] <op> value]`: keep the rows whose
cell in `column` satisfies `p`. -/
def maskRows (df : Table) (column : String) (p : Option String → Bool) : Table :=
  match df.cols.findIdx? (fun c => c == column) with
  | some i => ⟨df.cols, df.rows.filter (fun r => p ((r.get? i).getD none))⟩
  | none => df

/-- `DataProcessor._get_statistical_summary` (src/data_processor.py
lines 178-190), state-threaded: the method never assigns `self.df`. -/
def _get_statistical_summary (ops : PandasOps) (s : DPState) (columns : List String) :
    DPState × Table :=
  let cols := if columns.isEmpty then ops.numericColumns s.df else columns
  let valid := cols.filter (fun c => s.df.cols.contains c)
  if valid.isEmpty then (s, emptyTable) else (s, ops.describe s.df valid)

/-- `DataProcessor._filter_data` (src/data_processor.py lines 192-218):
start from a copy of `self.df`, apply each condition in sequence
(skipping columns absent from `self.df.columns`), dispatching on the
operator string; an unrecognized operator falls through the `elif`
chain and leaves the working table unchanged. -/
def _filter_data (ops : PandasOps) (s : DPState)
    (conditions : List (String × FilterCond)) : DPState × Table :=
  let filtered := conditions.foldl (fun fdf c =>
    if !(s.df.cols.contains c.1) then fdf
    else if c.2.operator = "==" then maskRows fdf c.1 (fun cell => ops.cellEq cell c.2.value)
    else if c.2.operator = "!=" then maskRows fdf c.1 (fun cell => ops.cellNe cell c.2.value)
    else if c.2.operator = ">" then maskRows fdf c.1 (fun cell => ops.cellGt cell c.2.value)
    else if c.2.operator = "<" then maskRows fdf c.1 (fun cell => ops.cellLt cell c.2.value)
    else if c.2.operator = ">=" then maskRows fdf c.1 (fun cell => ops.cellGe cell c.2.value)
    else if c.2.operator = "<=" then maskRows fdf c.1 (fun cell => ops.cellLe cell c.2.value)
    else if c.2.operator = "contains" then maskRows fdf c.1 (containsCellMatch c.2.value)
    else fdf) s.df
  (s, filtered)

/-- `DataProcessor._group_by_analysis` (src/data_processor.py lines
220-242): missing group column yields an empty table; an absent
aggregate column degrades to group sizes; an unrecognized aggregate
function falls back to `count`. -/
def _group_by_analysis (ops : PandasOps) (s : DPState)
    (group_column agg_column agg_function : String) : DPState × Table :=
  if !(s.df.cols.contains group_column) then (s, emptyTable)
  else
    let aggc := if !agg_column.isEmpty && !(s.df.cols.contains agg_column) then ""
                else agg_column
    if !aggc.isEmpty then
      if agg_function = "count" then (s, ops.groupAgg s.df group_column aggc "count")
      else if agg_function = "sum" then (s, ops.groupAgg s.df group_column aggc "sum")
      else if agg_function = "mean" then (s, ops.groupAgg s.df group_column aggc "mean")
      else if agg_function = "median" then (s, ops.groupAgg s.df group_column aggc "median")
      else (s, ops.groupAgg s.df group_column aggc "count")
    else (s, ops.groupSize s.df group_column)

/-- `DataProcessor._get_correlation_analysis` (src/data_processor.py
lines 244-254). -/
def _get_correlation_analysis (ops : PandasOps) (s : DPState) (columns : List String) :
    DPState × Table :=
  let ncols := if columns.isEmpty then ops.numericColumns s.df
               else columns.filter (fun c => s.df.cols.contains c && ops.isNumericDtype s.df c)
  if ncols.length < 2 then (s, emptyTable)
  else (s, ops.corr s.df ncols)

/-- `DataProcessor._get_value_counts` (src/data_processor.py lines
256-263): the frequency table is computed by pandas (`valueCounts`) and
its columns are then renamed to `[column, 'count']`. -/
def _get_value_counts (ops : PandasOps) (s : DPState) (column : String) :
    DPState × Table :=
  if !(s.df.cols.contains column) then (s, emptyTable)
  else (s, ⟨[column, "count"], (ops.valueCounts s.df column).rows⟩)

/-- The deny-list of `_execute_custom_query`
(src/data_processor.py line 269). -/
def forbidden_keywords : List String :=
  ["drop", "delete", "insert", "update", "exec", "eval"]

/-- `DataProcessor._execute_custom_query` (src/data_processor.py lines
265-277): return an empty table when any deny-listed keyword occurs in
the lowercased query, otherwise run `df.query` and degrade any
evaluation failure to an empty table. -/
def _execute_custom_query (ops : PandasOps) (s : DPState) (query : String) :
    DPState × Table :=
  if forbidden_keywords.any (fun k => occursInS k (pyLowerS query)) then (s, emptyTable)
  else
    match ops.queryRun s.df query with
    | some t => (s, t)
    | none => (s, emptyTable)

/-- The `operation` dict of `execute_data_query`, as a tagged request:
one constructor per recognized `type` string, plus `other` for the
`else: return None` branch. -/
inductive DataOperation where
  | statistical_summary (columns : List String)
  | filter (conditions : List (String × FilterCond))
  | group_by (group_column agg_column agg_function : String)
  | correlation (columns : List String)
  | value_counts (column : String)
  | custom_query (query : String)
  | other

/-- `DataProcessor.execute_data_query` (src/data_processor.py lines
144-176): dispatch on the operation type; unknown types return `none`
(Python `None`).  Each helper threads the `DataProcessor` state
explicitly, so a mutation of `self.df` would surface in the first
component. -/
def execute_data_query (ops : PandasOps) (s : DPState) (op : DataOperation) :
    DPState × Option Table :=
  match op with
  | .statistical_summary cs =>
    let r := _get_statistical_summary ops s cs
    (r.1, some r.2)
  | .filter conds =>
    let r := _filter_data ops s conds
    (r.1, some r.2)
  | .group_by g a f =>
    let r := _group_by_analysis ops s g a f
    (r.1, some r.2)
  | .correlation cs =>
    let r := _get_correlation_analysis ops s cs
    (r.1, some r.2)
  | .value_counts c =>
    let r := _get_value_counts ops s c
    (r.1, some r.2)
  | .custom_query q =>
    let r := _execute_custom_query ops s q
    (r.1, some r.2)
  | .other => (s, none)

/-- A demonstration `PandasOps`: every oracle answers trivially except
`queryRun`, which succeeds and returns the whole table — so any empty
result of `_execute_custom_query` on it is forced by the deny-list, not
by a failing query. -/
def demoOps : PandasOps where
  cellEq := fun _ _ => false
  cellNe := fun _ _ => false
  cellGt := fun _ _ => false
  cellLt := fun _ _ => false
  cellGe := fun _ _ => false
  cellLe := fun _ _ => false
  numericColumns := fun _ => []
  isNumericDtype := fun _ _ => false
  describe := fun _ _ => emptyTable
  groupAgg := fun _ _ _ _ => emptyTable
  groupSize := fun _ _ => emptyTable
  valueCounts := fun _ _ => emptyTable
  corr := fun _ _ => emptyTable
  queryRun := fun df _ => some df

/-! ### app.py — the plot code sandbox

`execute_plot_code` (src/app.py lines 23-113) cleans the snippet,
rewrites column-name variants to the canonical names, and runs the
result with `exec` in a restricted namespace while capturing stdout.
The `exec` step itself — arbitrary Python — is the oracle
`run : String → RunOutcome α`: it either raises (with some exception
text) or completes with a final `local_vars` binding environment and
the captured output.  Everything else (line filtering, joining,
variant generation, quoted-pattern replacement, the `fig` lookup and
the exact error-message formats) is concrete. -/

/-- Outcome of `exec(cleaned_code, safe_globals, local_vars)`:
`raised msg` models an exception with text `str(e) = msg`; `completed`
carries the `local_vars` bindings (values of type `α`) and the captured
stdout text. -/
inductive RunOutcome (α : Type) where
  | raised (msg : String)
  | completed (locals : List (String × α)) (output : String)

/-- The triple returned by `execute_plot_code`:
`(fig-or-None, captured-output, error-or-None)`. -/
structure PlotCallResult (α : Type) where
  fig : Option α
  output : String
  error : Option String

/-- `'fig' in local_vars` / `local_vars['fig']` (dict keys are unique). -/
def lookupVar {α : Type} (locals : List (String × α)) (x : String) : Option α :=
  (locals.find? (fun p => p.1 == x)).map (fun p => p.2)

/-- The line filter of `execute_plot_code` (src/app.py lines 32-37),
applied to an already-stripped line. -/
def lineKept (line : List Char) : Bool :=
  !startsWithL "import".data line && !startsWithL "from".data line &&
    !startsWithL "```".data line && !line.isEmpty &&
    line ≠ "python".data && line ≠ "json".data

/-- The cleaning stage of `execute_plot_code` (src/app.py lines 26-41):
strip the code, split on newlines, strip each line, drop import/from
lines, markdown fences, empty lines and the stray `python` / `json`
words, then join with `'; '` when more than one line survives and
concatenate (`''.join`) otherwise. -/
def cleanCode (code : String) : String :=
  let ls := (splitOnNl (pyStripS code).data).map (pyStripChars pyIsSpace)
  let clean := ls.filter lineKept
  if clean.length > 1 then ⟨joinSep [';', ' '] clean⟩ else ⟨clean.flatten⟩

/-- The case/spacing variants generated for one canonical column name
(src/app.py lines 125-133): exact, lower, upper, title, and the
space-substituted title/upper/lower forms. -/
def variationsOf (c : String) : List String :=
  let spaced : String := ⟨c.data.map (fun ch => if ch = '_' then ' ' else ch)⟩
  [c, pyLowerS c, pyUpperS c, pyTitleS c, pyTitleS spaced, pyUpperS spaced, pyLowerS spaced]

/-- The four quoting contexts rewritten for a variant `w`
(src/app.py lines 143-148): `'w'`, `"w"`, `['w']`, `["w"]`. -/
def quotePatterns (w : String) : List String :=
  ["\x27" ++ w ++ "\x27", "\"" ++ w ++ "\"",
   "[\x27" ++ w ++ "\x27]", "[\"" ++ w ++ "\"]"]

/-- `fix_column_names_in_code` (src/app.py lines 115-159): build the
variant→canonical dict (later variants overwrite earlier entries, dict
iteration follows insertion order), then for every pair with
`wrong ≠ correct` replace each quoted pattern by the same pattern with
the variant replaced by the canonical name.  The surrounding
`try/except` cannot fire in the model (all operations are total). -/
def fix_column_names_in_code (code : String) (columns : List String) : String :=
  let mapping := dictOfPairs ((columns.map (fun c =>
    (variationsOf c).map (fun v => (v, c)))).flatten)
  mapping.foldl (fun fixed kv =>
    if kv.1 ≠ kv.2 then
      (quotePatterns kv.1).foldl
        (fun fc pat => pyReplaceS fc pat (pyReplaceS pat kv.1 kv.2)) fixed
    else fixed) code

/-- The soft-failure report of src/app.py line 107 (built from the
cleaned, column-repaired code). -/
def noFigMsg (cleaned : String) : String :=
  "No \x27fig\x27 variable found in the generated code. Code executed: " ++ cleaned

/-- The exception report of src/app.py line 112 (built from `str(e)`
and the original `code` argument). -/
def plotErrMsg (e code : String) : String :=
  "Error executing plot code: " ++ e ++ "\nCode attempted: " ++ code

/-- `execute_plot_code` (src/app.py lines 23-113): clean, repair column
names, run; on completion look up `fig` in the local bindings and
report `noFigMsg` when absent; on an exception return
`(None, "", plotErrMsg ...)`.  The columns of the `df` argument are all
the function reads from it. -/
def execute_plot_code {α : Type} (run : String → RunOutcome α) (code : String)
    (columns : List String) : PlotCallResult α :=
  let cleaned := fix_column_names_in_code (cleanCode code) columns
  match run cleaned with
  | .completed locals output =>
    match lookupVar locals "fig" with
    | some v => ⟨some v, output, none⟩
    | none => ⟨none, output, some (noFigMsg cleaned)⟩
  | .raised e => ⟨none, "", some (plotErrMsg e code)⟩

/-! ### A spec-side predicate for the header-repair claim -/

/-- Modelled from the spec: the header-replacement rule as §4.1 step 1
of spec.md words it — stripped value empty, purely numeric, a
case-insensitive match to `{"", "nan", "none"}`, or of the form
`Unnamed: <k>`.  This is the claimed rule, to be compared with the
source's `handleMissingOne`. -/
def specHeaderReplaceCond (s0 : String) : Bool :=
  let s := pyStripS s0
  s.data.isEmpty || (!s.data.isEmpty && s.data.all isDigitA) ||
    (pyLowerS s = "" || pyLowerS s = "nan" || pyLowerS s = "none") ||
    (startsWithS "Unnamed: " s && !(s.data.drop 9).isEmpty && (s.data.drop 9).all isDigitA)

/-- The replacement condition actually implemented by
`handleMissingOne`, restated on an already-stripped header for the
amended claim: empty, purely digits, exactly one of
`"nan"`/`"NaN"`/`"None"`, or any text starting with `Unnamed:`. -/
def codeHeaderReplaceCond (s : String) : Bool :=
  s.data.isEmpty || s.data.all isDigitA && !s.data.isEmpty ||
    (s = "nan" || s = "NaN" || s = "None") || startsWithS "Unnamed:" s

/-- The canonical-name well-formedness predicate of the spec's Table
invariant: every character in `[a-z0-9_]`, no doubled underscore, no
leading or trailing underscore. -/
def isCanonChar (c : Char) : Bool := isLowerA c || isDigitA c || c = '_'

/-- No two adjacent underscores. -/
def noAdjU : List Char → Bool
  | c1 :: c2 :: rest => !(c1 = '_' && c2 = '_') && noAdjU (c2 :: rest)
  | _ => true

def canonicalShape (l : List Char) : Bool :=
  l.all isCanonChar && noAdjU l && !(l.head? == some '_') && !(l.getLast? == some '_')

def canonicalShapeS (s : String) : Bool := canonicalShape s.data

/-! ## Theorems -/

/-! ### Shared helper lemmas -/

theorem andE {a b : Bool} (h : (a && b) = true) : a = true ∧ b = true := by
  simp_all

theorem andI {a b : Bool} (h1 : a = true) (h2 : b = true) : (a && b) = true := by
  simp_all

theorem bnotI {b : Bool} (h : ¬ b = true) : (!b) = true := by
  simp_all

theorem bnotE {b : Bool} (h : (!b) = true) : ¬ b = true := by
  simp_all

theorem handleMissingAux_length (k : Nat) (cols : List String) :
    (handleMissingAux k cols).length = cols.length := by
  induction cols generalizing k with
  | nil => rfl
  | cons c t ih => simp [handleMissingAux, ih]

theorem handleMissingAux_getElem (k : Nat) (cols : List String) (i : Nat) :
    (handleMissingAux k cols)[i]? =
      (cols[i]?).map (fun c => handleMissingOne (k + i) c) := by
  induction cols generalizing k i with
  | nil => simp [handleMissingAux]
  | cons c t ih =>
    cases i with
    | zero => simp [handleMissingAux]
    | succ j =>
      have harith : k + 1 + j = k + (j + 1) := by omega
      simpa [handleMissingAux, harith] using ih (k + 1) j

theorem headerCond_eq (s : String) :
    (startsWithS "Unnamed:" s ||
      (s = "" || s = "nan" || s = "NaN" || s = "None") ||
      (!s.data.isEmpty && s.data.all isDigitA) || s.data.isEmpty)
    = codeHeaderReplaceCond s := by
  unfold codeHeaderReplaceCond
  rw [Bool.eq_iff_iff]
  have hε : s = "" ↔ s.data = [] := by
    constructor
    · intro h; subst h; rfl
    · intro h
      cases s with
      | mk d =>
        have hd : d = [] := h
        subst hd
        rfl
  simp only [Bool.or_eq_true, Bool.and_eq_true, Bool.not_eq_true', decide_eq_true_eq,
    List.isEmpty_iff, List.isEmpty_eq_false, hε]
  tauto

theorem handleMissingOne_eq (i : Nat) (c : String) :
    handleMissingOne i c =
      if codeHeaderReplaceCond (pyStripS c) then "Column " ++ toString (i + 1)
      else pyStripS c := by
  simp only [handleMissingOne]
  rw [headerCond_eq]

/-! ### Claim C10 — the Data Query Executor never mutates the state -/

theorem stat_summary_frame (ops : PandasOps) (s : DPState) (cs : List String) :
    (_get_statistical_summary ops s cs).1 = s := by
  simp only [_get_statistical_summary]
  split_ifs <;> rfl

theorem group_by_frame (ops : PandasOps) (s : DPState) (g a f : String) :
    (_group_by_analysis ops s g a f).1 = s := by
  simp only [_group_by_analysis]
  split_ifs <;> rfl

theorem correlation_frame (ops : PandasOps) (s : DPState) (cs : List String) :
    (_get_correlation_analysis ops s cs).1 = s := by
  simp only [_get_correlation_analysis]
  split_ifs <;> rfl

theorem value_counts_frame (ops : PandasOps) (s : DPState) (c : String) :
    (_get_value_counts ops s c).1 = s := by
  simp only [_get_value_counts]
  split_ifs <;> rfl

theorem custom_query_frame (ops : PandasOps) (s : DPState) (q : String) :
    (_execute_custom_query ops s q).1 = s := by
  simp only [_execute_custom_query]
  split_ifs
  · rfl
  · split <;> rfl

/-- Claim C10: every operation of the Data Query Executor
(statistical_summary, filter, group_by, correlation, value_counts,
custom_query, and unknown kinds) leaves the loaded table and the column
mapping unchanged: the state returned by `execute_data_query` is the
state it was given. -/
theorem execute_data_query_frame (ops : PandasOps) (s : DPState) (op : DataOperation) :
    (execute_data_query ops s op).1 = s := by
  cases op with
  | statistical_summary cs => exact stat_summary_frame ops s cs
  | filter conds => rfl
  | group_by g a f => exact group_by_frame ops s g a f
  | correlation cs => exact correlation_frame ops s cs
  | value_counts c => exact value_counts_frame ops s c
  | custom_query q => exact custom_query_frame ops s q
  | other => rfl

/-! ### Claim C8 — the custom-query deny-list -/

/-- Claim C8: whenever the query contains, case-insensitively, one of
the deny-listed substrings (drop, delete, insert, update, exec, eval),
`_execute_custom_query` returns an empty table no matter what the
query engine would have answered. -/
theorem custom_query_denylist (ops : PandasOps) (s : DPState) (query : String)
    (h : ∃ k ∈ forbidden_keywords, occursInS k (pyLowerS query) = true) :
    (_execute_custom_query ops s query).2 = emptyTable := by
  unfold _execute_custom_query
  rw [if_pos (List.any_eq_true.mpr h)]

/-- Witness for C8: "DROP TABLE students" contains "drop"
case-insensitively and is rejected even though the query engine
(`demoOps.queryRun`) would succeed and return the whole table. -/
theorem custom_query_denylist_witness :
    (∃ k ∈ forbidden_keywords, occursInS k (pyLowerS "DROP TABLE students") = true) ∧
    (_execute_custom_query demoOps ⟨⟨["a"], [[some "1"]]⟩, []⟩ "DROP TABLE students").2 =
      emptyTable :=
  ⟨⟨"drop", by decide, by decide⟩,
    custom_query_denylist demoOps ⟨⟨["a"], [[some "1"]]⟩, []⟩ "DROP TABLE students"
      ⟨"drop", by decide, by decide⟩⟩

/-! ### Claim C7 — the `contains` filter and missing values -/

/-- Claim C7 (failing input): in a column holding `"abc"` and a missing
value, filtering with operator `contains` and value `"na"` keeps
exactly the missing row — `astype(str)` renders the missing cell as the
text `"nan"`, which matches `"na"`, although the explicit `na=False`
argument in the source shows missing values were intended never to
match. -/
theorem contains_filter_missing_matches :
    (_filter_data demoOps ⟨⟨["c"], [[some "abc"], [none]]⟩, []⟩
      [("c", ⟨"contains", "na"⟩)]).2 = ⟨["c"], [[none]]⟩ := by
  decide

/-! ### Claim C6 — the numeric-coercion threshold -/

/-- Claim C6 (amended): a textual column is replaced by its numeric
coercion exactly when strictly more than 80% of its cells convert
successfully to a number (the all-NaN guard of the source adds
nothing to this condition). -/
theorem clean_column_numeric_iff {β : Type} (conv : String → Option β)
    (col : List (Option String)) :
    cleanColumn conv col = Sum.inr (col.map (coerceCell conv)) ↔
      4 * col.length < 5 * col.countP (fun c => (coerceCell conv c).isSome) := by
  have hcnt : ((col.map (coerceCell conv)).filter (fun v => v.isSome)).length
      = col.countP (fun c => (coerceCell conv c).isSome) := by
    rw [← List.countP_eq_length_filter, List.countP_map]
    rfl
  simp only [cleanColumn]
  split
  · rename_i hall
    have h0 : col.countP (fun c => (coerceCell conv c).isSome) = 0 := by
      rw [← hcnt]
      have : (col.map (coerceCell conv)).filter (fun v => v.isSome) = [] := by
        rw [List.filter_eq_nil_iff]
        intro v hv
        have := List.all_eq_true.mp hall v hv
        simp_all
      rw [this]
      rfl
    constructor
    · intro h; simp at h
    · intro h; rw [h0] at h; omega
  · rename_i hall
    split
    · rename_i hlt
      rw [hcnt] at hlt
      simp only [decide_eq_true_eq] at hlt
      simp [hlt]
    · rename_i hge
      rw [hcnt] at hge
      simp only [decide_eq_true_eq] at hge
      constructor
      · intro h; simp at h
      · intro h; exact absurd h hge

/-- Counterexample for C6 as stated: with 4 of 5 cells converting
(exactly 80%), the column is retained, not replaced. -/
theorem clean_column_exact_80_cex :
    cleanColumn parseDigits [some "1", some "2", some "3", some "4", some "x"] =
      Sum.inl [some "1", some "2", some "3", some "4", some "x"] ∧
    ([some "1", some "2", some "3", some "4", some "x"] :
      List (Option String)).countP (fun c => (coerceCell parseDigits c).isSome) = 4 ∧
    ([some "1", some "2", some "3", some "4", some "x"] :
      List (Option String)).length = 5 := by
  refine ⟨by decide, by decide, by decide⟩

/-! ### Claim C5 — the header-repair condition -/

/-- Counterexample for C5 as stated: the spec's rule replaces a header
whose stripped value matches "none" case-insensitively, but the source
matches the literal list `['', 'nan', 'NaN', 'None']`, so the header
"none" is kept unchanged instead of becoming "Column 1". -/
theorem handle_missing_case_sensitive_cex :
    specHeaderReplaceCond "none" = true ∧
    _handle_missing_column_names ["none"] = ["none"] ∧
    _handle_missing_column_names ["none"] ≠ ["Column 1"] := by
  refine ⟨by decide, by decide, by decide⟩

/-- Claim C5 (amended): position by position, the header-repair step
replaces the stripped raw header with `Column <i+1>` exactly when it is
empty, purely digits, one of the literal strings "nan"/"NaN"/"None"
(case-sensitively), or starts with "Unnamed:" (with or without a
numeric tail); every other header is kept, trimmed, unchanged. -/
theorem handle_missing_characterization (cols : List String) (i : Nat) :
    (_handle_missing_column_names cols)[i]? =
      (cols[i]?).map (fun c =>
        if codeHeaderReplaceCond (pyStripS c) then "Column " ++ toString (i + 1)
        else pyStripS c) := by
  unfold _handle_missing_column_names
  rw [handleMissingAux_getElem]
  cases cols[i]? with
  | none => rfl
  | some c => simp [handleMissingOne_eq]

/-! ### Claim C9 — the column mapping under canonical-name collisions -/

theorem keys_map_update (d : List (String × String)) (kv : String × String) :
    (d.map (fun p => if p.1 == kv.1 then kv else p)).map Prod.fst = d.map Prod.fst := by
  rw [List.map_map]
  apply List.map_congr_left
  intro p _
  by_cases h : p.1 = kv.1
  · simp [h]
  · simp [h]

theorem keys_dictInsert_mem (d : List (String × String)) (kv : String × String)
    (k : String) :
    k ∈ (dictInsert d kv).map Prod.fst ↔ k = kv.1 ∨ k ∈ d.map Prod.fst := by
  unfold dictInsert
  split
  · rename_i hp
    rw [keys_map_update]
    constructor
    · exact Or.inr
    · rintro (rfl | hk)
      · obtain ⟨p, hpmem, hpk⟩ := List.any_eq_true.mp hp
        have hpe : p.1 = kv.1 := by simpa using hpk
        exact hpe ▸ List.mem_map.mpr ⟨p, hpmem, rfl⟩
      · exact hk
  · rw [List.map_append]
    simp [or_comm]

theorem keys_dictInsert_nodup (d : List (String × String)) (kv : String × String)
    (h : (d.map Prod.fst).Nodup) : ((dictInsert d kv).map Prod.fst).Nodup := by
  unfold dictInsert
  split
  · rw [keys_map_update]; exact h
  · rename_i hp
    rw [List.map_append, List.nodup_append]
    refine ⟨h, by simp, ?_⟩
    intro k hk hk1
    simp at hk1
    obtain ⟨p, hpmem, hpk⟩ := List.mem_map.mp hk
    have : d.any (fun p => p.1 == kv.1) = true :=
      List.any_eq_true.mpr ⟨p, hpmem, by simp [hpk, hk1]⟩
    exact hp this

theorem dict_foldl_keys (ps : List (String × String)) (d : List (String × String))
    (h : (d.map Prod.fst).Nodup) :
    ((ps.foldl dictInsert d).map Prod.fst).Nodup ∧
    (∀ k, k ∈ (ps.foldl dictInsert d).map Prod.fst ↔
      k ∈ d.map Prod.fst ∨ k ∈ ps.map Prod.fst) := by
  induction ps generalizing d with
  | nil =>
    refine ⟨h, fun k => ?_⟩
    simp
  | cons p t ih =>
    rw [List.foldl_cons]
    obtain ⟨h1, h2⟩ := ih (dictInsert d p) (keys_dictInsert_nodup d p h)
    refine ⟨h1, fun k => ?_⟩
    rw [h2 k, keys_dictInsert_mem]
    simp
    tauto

/-! ### Character-level lemmas for the canonicalization pipeline -/

theorem toNat_ofNat_valid (n : Nat) (h : n.isValidChar) : (Char.ofNat n).toNat = n := by
  unfold Char.ofNat
  rw [dif_pos h]
  rfl

theorem isCanonChar_cases {c : Char} (h : isCanonChar c = true) :
    (97 ≤ c.toNat ∧ c.toNat ≤ 122) ∨ (48 ≤ c.toNat ∧ c.toNat ≤ 57) ∨ c = '_' := by
  simp only [isCanonChar, isLowerA, isDigitA, Bool.or_eq_true, Bool.and_eq_true,
    decide_eq_true_eq] at h
  tauto

theorem isUpperA_eq_false_of_canon {c : Char} (h : isCanonChar c = true) :
    isUpperA c = false := by
  rcases isCanonChar_cases h with h1 | h1 | rfl
  · simp only [isUpperA, Bool.and_eq_false_iff, decide_eq_false_iff_not]
    omega
  · simp only [isUpperA, Bool.and_eq_false_iff, decide_eq_false_iff_not]
    omega
  · decide

theorem pyToLower_canon_fix {c : Char} (h : isCanonChar c = true) : pyToLower c = c := by
  simp [pyToLower, isUpperA_eq_false_of_canon h]

theorem isWordCharA_of_canon {c : Char} (h : isCanonChar c = true) :
    isWordCharA c = true := by
  rcases isCanonChar_cases h with h1 | h1 | rfl
  · simp only [isWordCharA, isAlphaA, isLowerA, Bool.or_eq_true, Bool.and_eq_true,
      decide_eq_true_eq]
    tauto
  · simp only [isWordCharA, isDigitA, Bool.or_eq_true, Bool.and_eq_true, decide_eq_true_eq]
    tauto
  · decide

theorem normChar_canon_fix {c : Char} (h : isCanonChar c = true) : normChar c = c := by
  simp [normChar, isWordCharA_of_canon h]

theorem toNat_lt_of_space {c : Char} (h : pyIsSpace c = true) : c.toNat < 33 := by
  simp only [pyIsSpace, Bool.or_eq_true, decide_eq_true_eq] at h
  rcases h with ((((rfl | rfl) | rfl) | rfl) | rfl) | rfl <;> decide

theorem toNat_ge_of_canon {c : Char} (h : isCanonChar c = true) : 48 ≤ c.toNat := by
  rcases isCanonChar_cases h with h1 | h1 | rfl
  · omega
  · omega
  · decide

theorem pyIsSpace_eq_false_of_canon {c : Char} (h : isCanonChar c = true) :
    pyIsSpace c = false := by
  by_cases hs : pyIsSpace c = true
  · have h1 := toNat_lt_of_space hs
    have h2 := toNat_ge_of_canon h
    omega
  · simpa using hs

theorem isCanonChar_normChar_pyToLower (c : Char) :
    isCanonChar (normChar (pyToLower c)) = true := by
  by_cases hu : isUpperA c = true
  · have hrange : 65 ≤ c.toNat ∧ c.toNat ≤ 90 := by
      simpa only [isUpperA, Bool.and_eq_true, decide_eq_true_eq] using hu
    have hvalid : Nat.isValidChar (c.toNat + 32) := Or.inl (by omega)
    have hlow : isLowerA (Char.ofNat (c.toNat + 32)) = true := by
      simp only [isLowerA, Bool.and_eq_true, decide_eq_true_eq, toNat_ofNat_valid _ hvalid]
      omega
    have hcanon : isCanonChar (Char.ofNat (c.toNat + 32)) = true := by
      simp [isCanonChar, hlow]
    simp only [pyToLower]
    rw [if_pos hu, normChar_canon_fix hcanon]
    exact hcanon
  · simp only [pyToLower]
    rw [if_neg hu]
    by_cases hw : isWordCharA c = true
    · simp only [normChar]
      rw [if_pos hw]
      simp only [isWordCharA, isAlphaA, Bool.or_eq_true, decide_eq_true_eq] at hw
      rcases hw with ((h1 | h1) | h1) | h1
      · exact absurd h1 hu
      · simp [isCanonChar, h1]
      · simp [isCanonChar, h1]
      · simp [isCanonChar, h1]
    · simp only [normChar]
      rw [if_neg hw]
      decide

/-! ### List-level lemmas for the canonicalization pipeline -/

theorem map_eq_self_of_mem {f : Char → Char} {l : List Char} (h : ∀ c ∈ l, f c = c) :
    l.map f = l := by
  induction l with
  | nil => rfl
  | cons c t ih =>
    simp only [List.map_cons]
    rw [h c (by simp), ih (fun x hx => h x (by simp [hx]))]

theorem dropWhile_eq_self_of_head {p : Char → Bool} {l : List Char}
    (h : ∀ c, l.head? = some c → p c = false) : l.dropWhile p = l := by
  cases l with
  | nil => rfl
  | cons c t => simp [List.dropWhile_cons, h c rfl]

theorem head?_dropWhile_false {p : Char → Bool} :
    ∀ {l : List Char} {c : Char}, (l.dropWhile p).head? = some c → p c = false := by
  intro l
  induction l with
  | nil => intro c h; simp [List.dropWhile] at h
  | cons a t ih =>
    intro c h
    rw [List.dropWhile_cons] at h
    by_cases hp : p a = true
    · rw [if_pos hp] at h
      exact ih h
    · rw [if_neg hp] at h
      simp only [List.head?_cons, Option.some.injEq] at h
      rw [← h]
      simpa using hp

theorem head?_mem {l : List Char} {c : Char} (h : l.head? = some c) : c ∈ l := by
  cases l with
  | nil => simp at h
  | cons a t =>
    simp only [List.head?_cons, Option.some.injEq] at h
    simp [← h]

theorem getLast?_mem {l : List Char} {c : Char} (h : l.getLast? = some c) : c ∈ l := by
  rw [← List.head?_reverse] at h
  exact List.mem_reverse.mp (head?_mem h)

theorem mem_pyStripChars {p : Char → Bool} {l : List Char} {c : Char}
    (h : c ∈ pyStripChars p l) : c ∈ l := by
  unfold pyStripChars at h
  rw [List.mem_reverse] at h
  have h1 := (List.dropWhile_sublist p).subset h
  rw [List.mem_reverse] at h1
  exact (List.dropWhile_sublist p).subset h1

theorem noAdjU_tail {c : Char} {l : List Char} (h : noAdjU (c :: l) = true) :
    noAdjU l = true := by
  cases l with
  | nil => rfl
  | cons c2 t =>
    have h' : (!(c = '_' && c2 = '_') && noAdjU (c2 :: t)) = true := h
    exact (andE h').2

theorem noAdjU_append_right :
    ∀ {l₁ l₂ : List Char}, noAdjU (l₁ ++ l₂) = true → noAdjU l₂ = true := by
  intro l₁
  induction l₁ with
  | nil => intro l₂ h; exact h
  | cons c t ih =>
    intro l₂ h
    exact ih (noAdjU_tail h)

theorem noAdjU_append_left :
    ∀ {l₁ l₂ : List Char}, noAdjU (l₁ ++ l₂) = true → noAdjU l₁ = true := by
  intro l₁
  induction l₁ with
  | nil => intro l₂ _; rfl
  | cons c t ih =>
    intro l₂ h
    cases t with
    | nil => rfl
    | cons c2 t2 =>
      have h' : (!(c = '_' && c2 = '_') && noAdjU (c2 :: t2 ++ l₂)) = true := h
      obtain ⟨h1, h2⟩ := andE h'
      exact andI h1 (ih h2)

theorem mem_collapseU : ∀ {l : List Char} {c : Char}, c ∈ collapseU l → c ∈ l := by
  intro l
  induction l with
  | nil => intro c h; exact h
  | cons c1 t ih =>
    intro c h
    cases t with
    | nil => exact h
    | cons c2 t2 =>
      simp only [collapseU] at h
      by_cases hc : (c1 = '_' && c2 = '_') = true
      · rw [if_pos hc] at h
        exact List.mem_cons_of_mem _ (ih h)
      · rw [if_neg hc] at h
        rcases List.mem_cons.mp h with rfl | h2
        · exact List.mem_cons_self _ _
        · exact List.mem_cons_of_mem _ (ih h2)

theorem collapseU_head (x : Char) (xs : List Char) :
    (collapseU (x :: xs)).head? = some x := by
  induction xs generalizing x with
  | nil => rfl
  | cons y ys ih =>
    simp only [collapseU]
    by_cases h : (x = '_' && y = '_') = true
    · rw [if_pos h]
      obtain ⟨hx, hy⟩ := andE h
      have hx' : x = '_' := by simpa using hx
      have hy' : y = '_' := by simpa using hy
      rw [ih y, hy', hx']
    · rw [if_neg h]
      rfl

theorem noAdjU_collapseU : ∀ (l : List Char), noAdjU (collapseU l) = true := by
  intro l
  induction l with
  | nil => rfl
  | cons c1 t ih =>
    cases t with
    | nil => rfl
    | cons c2 t2 =>
      simp only [collapseU]
      by_cases h : (c1 = '_' && c2 = '_') = true
      · rw [if_pos h]
        exact ih
      · rw [if_neg h]
        cases hL : collapseU (c2 :: t2) with
        | nil => rfl
        | cons a as =>
          have ha : a = c2 := by
            have hhd := collapseU_head c2 t2
            rw [hL] at hhd
            simpa using hhd
          rw [hL] at ih
          show (!(c1 = '_' && a = '_') && noAdjU (a :: as)) = true
          refine andI ?_ ih
          rw [ha]
          exact bnotI h

theorem collapseU_eq_self : ∀ {l : List Char}, noAdjU l = true → collapseU l = l := by
  intro l
  induction l with
  | nil => intro _; rfl
  | cons c1 t ih =>
    intro h
    cases t with
    | nil => rfl
    | cons c2 t2 =>
      have h' : (!(c1 = '_' && c2 = '_') && noAdjU (c2 :: t2)) = true := h
      obtain ⟨h1, h2⟩ := andE h'
      simp only [collapseU]
      rw [if_neg (bnotE h1), ih h2]

theorem noAdjU_pyStripChars {p : Char → Bool} {l : List Char} (h : noAdjU l = true) :
    noAdjU (pyStripChars p l) = true := by
  unfold pyStripChars
  obtain ⟨u, hu⟩ := List.dropWhile_suffix (l := l) p
  have hd : noAdjU (l.dropWhile p) = true := noAdjU_append_right (hu ▸ h)
  obtain ⟨u2, hu2⟩ := List.dropWhile_suffix (l := (l.dropWhile p).reverse) p
  have hdecomp : ((l.dropWhile p).reverse.dropWhile p).reverse ++ u2.reverse
      = l.dropWhile p := by
    have hrev := congrArg List.reverse hu2
    simpa [List.reverse_append] using hrev
  exact noAdjU_append_left (hdecomp ▸ hd)

theorem head?_pyStripChars_false {p : Char → Bool} {l : List Char} {c : Char}
    (h : (pyStripChars p l).head? = some c) : p c = false := by
  unfold pyStripChars at h
  obtain ⟨u2, hu2⟩ := List.dropWhile_suffix (l := (l.dropWhile p).reverse) p
  have hdecomp : ((l.dropWhile p).reverse.dropWhile p).reverse ++ u2.reverse
      = l.dropWhile p := by
    have hrev := congrArg List.reverse hu2
    simpa [List.reverse_append] using hrev
  have hfull : (l.dropWhile p).head? = some c := by
    rw [← hdecomp, List.head?_append, h]
    rfl
  exact head?_dropWhile_false hfull

theorem getLast?_pyStripChars_false {p : Char → Bool} {l : List Char} {c : Char}
    (h : (pyStripChars p l).getLast? = some c) : p c = false := by
  unfold pyStripChars at h
  rw [List.getLast?_reverse] at h
  exact head?_dropWhile_false h

theorem pyStripChars_eq_self {p : Char → Bool} {l : List Char}
    (hh : ∀ c, l.head? = some c → p c = false)
    (hl : ∀ c, l.getLast? = some c → p c = false) : pyStripChars p l = l := by
  unfold pyStripChars
  rw [dropWhile_eq_self_of_head hh]
  rw [dropWhile_eq_self_of_head (fun c hc => hl c (by rwa [List.head?_reverse] at hc))]
  exact List.reverse_reverse l

/-! ### Shape and idempotence of the canonicalization -/

theorem canonList_mem_canon {l : List Char} {c : Char} (h : c ∈ canonList l) :
    isCanonChar c = true := by
  unfold canonList stripUnd at h
  have h1 := mem_pyStripChars h
  have h2 := mem_collapseU h1
  rw [List.map_map] at h2
  obtain ⟨a, -, rfl⟩ := List.mem_map.mp h2
  exact isCanonChar_normChar_pyToLower a

theorem canonList_noAdjU (l : List Char) : noAdjU (canonList l) = true :=
  noAdjU_pyStripChars (noAdjU_collapseU _)

theorem canonList_shape (l : List Char) : canonicalShape (canonList l) = true := by
  unfold canonicalShape
  refine andI (andI (andI ?_ ?_) ?_) ?_
  · exact List.all_eq_true.mpr (fun c hc => canonList_mem_canon hc)
  · exact canonList_noAdjU l
  · cases hy : (canonList l).head? with
    | none => rfl
    | some c =>
      have hne : ¬ c = '_' := by
        simpa using head?_pyStripChars_false (p := fun c => c = '_') hy
      simp [hne]
  · cases hy : (canonList l).getLast? with
    | none => rfl
    | some c =>
      have hne : ¬ c = '_' := by
        simpa using getLast?_pyStripChars_false (p := fun c => c = '_') hy
      simp [hne]

theorem canonList_eq_self {l : List Char} (h : canonicalShape l = true) :
    canonList l = l := by
  unfold canonicalShape at h
  rw [Bool.and_eq_true, Bool.and_eq_true, Bool.and_eq_true] at h
  obtain ⟨⟨⟨hall, hadj⟩, hhead⟩, hlast⟩ := h
  have hmem : ∀ c ∈ l, isCanonChar c = true := List.all_eq_true.mp hall
  unfold canonList
  rw [pyStripChars_eq_self (fun c hc => pyIsSpace_eq_false_of_canon (hmem c (head?_mem hc)))
    (fun c hc => pyIsSpace_eq_false_of_canon (hmem c (getLast?_mem hc)))]
  rw [map_eq_self_of_mem (fun c hc => pyToLower_canon_fix (hmem c hc))]
  rw [map_eq_self_of_mem (fun c hc => normChar_canon_fix (hmem c hc))]
  rw [collapseU_eq_self hadj]
  unfold stripUnd
  apply pyStripChars_eq_self
  · intro c hc
    rw [hc] at hhead
    simpa using hhead
  · intro c hc
    rw [hc] at hlast
    simpa using hlast

theorem normalizeOne_normalizeOne (s : String) :
    normalizeOne (normalizeOne s) = normalizeOne s := by
  show String.mk (canonList (canonList s.data)) = String.mk (canonList s.data)
  rw [canonList_eq_self (canonList_shape s.data)]

/-! ### Claim C4 — canonicalization is idempotent -/

/-- Claim C4: the column-name canonicalization is idempotent —
normalizing an already-normalized header list returns it unchanged,
i.e. canonicalize(canonicalize(x)) = canonicalize(x) for every input. -/
theorem normalize_idempotent (cols : List String) :
    _normalize_column_names (_normalize_column_names cols) =
      _normalize_column_names cols := by
  unfold _normalize_column_names
  rw [List.map_map]
  exact List.map_congr_left (fun s _ => normalizeOne_normalizeOne s)

/-! ### Claim C3 — well-formedness of repaired-then-canonicalized names -/

/-- Counterexample for C3 as stated: the raw header "@" survives header
repair unchanged and canonicalizes to the empty string, so the pipeline
does not guarantee non-empty names. -/
theorem pipeline_empty_name_cex :
    ¬ (∀ n ∈ _normalize_column_names (_handle_missing_column_names ["@"]), n ≠ "") := by
  decide

/-- Claim C3 (amended): every name produced by the
header-repair-then-canonicalization pipeline contains only characters
in `[a-z0-9_]` and has no leading, trailing, or doubled underscore —
but it may be empty (non-emptiness fails, see the counterexample). -/
theorem pipeline_names_canonical_shape (cols : List String) (n : String)
    (h : n ∈ _normalize_column_names (_handle_missing_column_names cols)) :
    canonicalShapeS n = true := by
  unfold _normalize_column_names at h
  obtain ⟨x, -, rfl⟩ := List.mem_map.mp h
  exact canonList_shape x.data

/-- Witness for C3: on the raw header list ["Total Score"] the pipeline
produces "total_score", whose shape the theorem certifies. -/
theorem pipeline_names_canonical_shape_witness :
    "total_score" ∈ _normalize_column_names (_handle_missing_column_names ["Total Score"]) ∧
    canonicalShapeS "total_score" = true :=
  ⟨by decide, pipeline_names_canonical_shape ["Total Score"] "total_score" (by decide)⟩

/-- Counterexample for C9 as stated: the raw headers "A B" and "A_B"
both canonicalize to "a_b"; the table then has two columns but the
mapping built by `dict(zip(...))` has a single entry, so its
cardinality is not the column count. -/
theorem column_mapping_collision_cex :
    (_create_column_mapping ["A B", "A_B"]).length = 1 ∧
    (["A B", "A_B"] : List String).length = 2 ∧
    _create_column_mapping ["A B", "A_B"] = [("a_b", "A_B")] := by
  refine ⟨by decide, by decide, by decide⟩

/-- Claim C9 (amended): the ColumnMapping is a well-formed finite map —
its keys contain no duplicates and are exactly the canonical column
names — so its cardinality is the number of distinct canonical names;
when distinct raw headers canonicalize to the same identifier, later
columns overwrite earlier entries and the cardinality drops below the
column count. -/
theorem column_mapping_keys_characterization (raw : List String) :
    ((_create_column_mapping raw).map Prod.fst).Nodup ∧
    (∀ k, k ∈ (_create_column_mapping raw).map Prod.fst ↔
      k ∈ _normalize_column_names (_handle_missing_column_names raw)) := by
  have hlen : (_normalize_column_names (_handle_missing_column_names raw)).length
      = raw.length := by
    unfold _normalize_column_names _handle_missing_column_names
    rw [List.length_map, handleMissingAux_length]
  have hz : (((_normalize_column_names (_handle_missing_column_names raw)).zip raw).map
      Prod.fst) = _normalize_column_names (_handle_missing_column_names raw) :=
    List.map_fst_zip _ _ (le_of_eq hlen)
  unfold _create_column_mapping dictOfPairs
  obtain ⟨h1, h2⟩ := dict_foldl_keys
    ((_normalize_column_names (_handle_missing_column_names raw)).zip raw) [] (by simp)
  refine ⟨h1, fun k => ?_⟩
  rw [h2 k, hz]
  simp

/-! ### Substring-occurrence lemmas for the sandbox error messages -/

theorem startsWithL_self_append (t l : List Char) : startsWithL t (t ++ l) = true := by
  induction t with
  | nil => rfl
  | cons a as ih => simp [startsWithL, ih]

theorem occursInL_nil_pat : ∀ (l : List Char), occursInL [] l = true := by
  intro l
  cases l with
  | nil => rfl
  | cons c rest => simp [occursInL, startsWithL]

theorem occursInL_append (t u v : List Char) : occursInL t (u ++ t ++ v) = true := by
  induction u with
  | nil =>
    cases t with
    | nil => exact occursInL_nil_pat v
    | cons a as =>
      have hshape : ([] : List Char) ++ (a :: as) ++ v = a :: (as ++ v) := by simp
      rw [hshape]
      simp only [occursInL]
      rw [show a :: (as ++ v) = (a :: as) ++ v from rfl, startsWithL_self_append]
      rfl
  | cons c u' ih =>
    have hshape : (c :: u') ++ t ++ v = c :: (u' ++ t ++ v) := by simp
    rw [hshape]
    simp only [occursInL]
    rw [ih]
    simp

theorem occursInS_middle (pre mid suf : String) :
    occursInS mid (pre ++ mid ++ suf) = true := by
  unfold occursInS
  rw [String.data_append, String.data_append]
  exact occursInL_append mid.data pre.data suf.data

theorem plotErrMsg_embeds_exception (e code : String) :
    occursInS e (plotErrMsg e code) = true := by
  have hshape : plotErrMsg e code =
      "Error executing plot code: " ++ e ++ ("\nCode attempted: " ++ code) := by
    unfold plotErrMsg
    rw [String.append_assoc]
  rw [hshape]
  exact occursInS_middle _ e _

theorem plotErrMsg_embeds_code (e code : String) :
    occursInS code (plotErrMsg e code) = true := by
  have hshape : plotErrMsg e code =
      ("Error executing plot code: " ++ e ++ "\nCode attempted: ") ++ code ++ "" := by
    unfold plotErrMsg
    rw [String.append_empty]
  rw [hshape]
  exact occursInS_middle _ code _

/-! ### Claim C1 — the sandbox error path -/

/-- Counterexample for C1 as stated: for the snippet
"a = 1\nraise ValueError(1)" (whose cleaned form joins the lines with
"; ") a raised error produces a message that does not contain the
rewritten snippet — the source embeds the original `code` argument,
not the cleaned/column-repaired text. -/
theorem plot_error_rewritten_snippet_cex :
    ((execute_plot_code (fun _ => RunOutcome.raised "x" : String → RunOutcome Nat)
        "a = 1\nraise ValueError(1)" []).error.map
      (fun m =>
        occursInS (fix_column_names_in_code (cleanCode "a = 1\nraise ValueError(1)") []) m))
      = some false := by
  decide

/-- Claim C1 (amended): when executing the cleaned and column-repaired
snippet raises, `execute_plot_code` catches the exception and returns
`(None, "", error)` where the error message embeds the exception text
and the ORIGINAL snippet as supplied by the caller (not the rewritten
one); the exception is never propagated — the result is an ordinary
return value. -/
theorem plot_error_embeds_original_code {α : Type} (run : String → RunOutcome α)
    (code : String) (columns : List String) (e : String)
    (h : run (fix_column_names_in_code (cleanCode code) columns) = RunOutcome.raised e) :
    execute_plot_code run code columns = ⟨none, "", some (plotErrMsg e code)⟩ ∧
    occursInS e (plotErrMsg e code) = true ∧
    occursInS code (plotErrMsg e code) = true := by
  refine ⟨?_, plotErrMsg_embeds_exception e code, plotErrMsg_embeds_code e code⟩
  simp only [execute_plot_code]
  rw [h]

/-- Witness for C1: a snippet whose execution raises "boom" yields the
caught error triple. -/
theorem plot_error_embeds_original_code_witness :
    execute_plot_code (fun _ => RunOutcome.raised "boom" : String → RunOutcome Nat)
        "x = 1" [] = ⟨none, "", some (plotErrMsg "boom" "x = 1")⟩ ∧
    occursInS "boom" (plotErrMsg "boom" "x = 1") = true ∧
    occursInS "x = 1" (plotErrMsg "boom" "x = 1") = true :=
  plot_error_embeds_original_code
    (fun _ => RunOutcome.raised "boom" : String → RunOutcome Nat) "x = 1" [] "boom" rfl

/-! ### Claim C2 — chart/error exclusivity and the no-`fig` soft failure -/

/-- Counterexample for C2 as stated: when execution completes without
raising and no variable named `fig` is bound, the returned triple does
carry an error (the "No 'fig' variable found" report is returned in the
error slot), contradicting "no chart and no error". -/
theorem plot_nofig_error_present_cex :
    (execute_plot_code (fun _ => RunOutcome.completed [] "" : String → RunOutcome Nat)
        "x = 1" []).error ≠ none := by
  decide

/-- Claim C2 (amended): chart and error are never both present in the
returned triple; and when execution completes without raising and no
variable named `fig` is bound, the result carries no chart but does
carry a non-null error — the soft "No 'fig' variable found" report
embedding the rewritten snippet. -/
theorem plot_result_at_most_one {α : Type} (run : String → RunOutcome α)
    (code : String) (columns : List String) :
    (((execute_plot_code run code columns).fig.isSome &&
      (execute_plot_code run code columns).error.isSome) = false) ∧
    (∀ locals output,
      run (fix_column_names_in_code (cleanCode code) columns) =
        RunOutcome.completed locals output →
      lookupVar locals "fig" = none →
      (execute_plot_code run code columns).fig = none ∧
      (execute_plot_code run code columns).error =
        some (noFigMsg (fix_column_names_in_code (cleanCode code) columns))) := by
  constructor
  · simp only [execute_plot_code]
    cases hr : run (fix_column_names_in_code (cleanCode code) columns) with
    | raised e => rfl
    | completed locals output =>
      cases hl : lookupVar locals "fig" with
      | none => simp [hl]
      | some v => simp [hl]
  · intro locals output hc hfig
    simp only [execute_plot_code]
    rw [hc]
    simp [hfig]

/-- Witness for C2: a run that completes with no bindings triggers the
soft failure — no chart, a non-null error. -/
theorem plot_result_at_most_one_witness :
    (((execute_plot_code (fun _ => RunOutcome.completed [] "" : String → RunOutcome Nat)
        "x = 1" []).fig.isSome &&
      (execute_plot_code (fun _ => RunOutcome.completed [] "" : String → RunOutcome Nat)
        "x = 1" []).error.isSome) = false) ∧
    (execute_plot_code (fun _ => RunOutcome.completed [] "" : String → RunOutcome Nat)
        "x = 1" []).fig = none ∧
    (execute_plot_code (fun _ => RunOutcome.completed [] "" : String → RunOutcome Nat)
        "x = 1" []).error =
      some (noFigMsg (fix_column_names_in_code (cleanCode "x = 1") [])) :=
  ⟨(plot_result_at_most_one
      (fun _ => RunOutcome.completed [] "" : String → RunOutcome Nat) "x = 1" []).1,
    (plot_result_at_most_one
      (fun _ => RunOutcome.completed [] "" : String → RunOutcome Nat) "x = 1" []).2
      [] "" rfl rfl⟩

end Excelbot
